import Mathlib

/-!
Shallow embedding of the resilient LLM routing core of `llmrouter`
(`src/core/router.ts`, `src/router-with-resilience.ts`, `src/policies.ts`,
`src/types/config.ts`, `src/providers/llmProviders.ts`), together with
theorems settling the frozen claims about it.

Conventions of the embedding:
* JS numbers holding millisecond timestamps are `Int` (`Date.now()` is an
  integer); response times and costs are `Rat`; counters are `Nat`.
* The wall clock is threaded explicitly: every embedded operation receives
  the value `Date.now()` would return at that moment.
* A JS `throw` is `Except.error`; `undefined`-able fields are `Option`.
* The Bottleneck limiter is opaque except for `counts().RECEIVED`, kept in
  the wrapper as `limiterReceived`; `limiter.schedule(fn)` runs `fn`.
-/

namespace LLMRouter

/-- Circuit state: the string union `'closed' | 'open' | 'half-open'`. -/
inductive CircuitState where
  | closed
  | opened
  | halfOpen
deriving DecidableEq, Repr

/-- The per-provider metrics block of `ProviderWrapper` in `core/router.ts`. -/
structure Metrics where
  totalRequests : Nat
  successfulRequests : Nat
  failedRequests : Nat
  rateLimitedRequests : Nat
  circuitBreakerTrips : Nat
  lastRequestTime : Int
  averageResponseTime : Rat
deriving DecidableEq, Repr

/-- The all-zero metrics block installed by `initializeProviders`. -/
def Metrics.init : Metrics :=
  { totalRequests := 0, successfulRequests := 0, failedRequests := 0,
    rateLimitedRequests := 0, circuitBreakerTrips := 0,
    lastRequestTime := 0, averageResponseTime := 0 }

/-- Embeds `ModelConfig` from `types/config.ts`. -/
structure ModelConfig where
  name : String
  costPer1kInputTokens : Rat
  costPer1kOutputTokens : Rat
  maxTokens : Nat
deriving DecidableEq, Repr

/-- The optional `rateLimit` block of a provider configuration. -/
structure RateLimitConfig where
  maxConcurrent : Option Nat
  minTimeMs : Option Nat
  tokensPerSecond : Option Nat
deriving DecidableEq, Repr

/-- Embeds `LoadedProviderConfig` from `types/config.ts` (the fields the routing
core reads; `apiKey`/`baseUrl` are carried verbatim). -/
structure LoadedProviderConfig where
  name : String
  type : String
  enabled : Bool
  priority : Rat
  apiKey : String
  baseUrl : String
  models : List ModelConfig
  rateLimit : Option RateLimitConfig
deriving DecidableEq, Repr

/-- Embeds `ProviderWrapper` from `core/router.ts`: a provider's owned mutable
state. `limiterReceived` stands for `limiter.counts().RECEIVED`. -/
structure ProviderWrapper where
  config : LoadedProviderConfig
  lastUsed : Int
  failureCount : Nat
  successCount : Nat
  circuitBreakerState : CircuitState
  circuitBreakerOpenedAt : Option Int
  limiterReceived : Nat
  metrics : Metrics
deriving DecidableEq, Repr

/-- Embeds `CircuitBreakerConfig` from `types/config.ts`. -/
structure CircuitBreakerConfig where
  enabled : Bool
  threshold : Nat
  samplingDurationMs : Nat
  resetTimeoutMs : Int
deriving DecidableEq, Repr

/-- Embeds `RetryConfig` from `types/config.ts`. -/
structure RetryConfig where
  enabled : Bool
  attempts : Nat
  initialBackoffMs : Nat
  maxBackoffMs : Nat
  multiplier : Nat
deriving DecidableEq, Repr

/-- Embeds `ResilienceConfig` from `types/config.ts`. -/
structure ResilienceConfig where
  retry : Option RetryConfig
  circuitBreaker : Option CircuitBreakerConfig
deriving DecidableEq, Repr

/-- Embeds `LLMRouter.updateCircuitBreakerState(providerName, success)` from
`core/router.ts` (lines 197-220), acting on the named wrapper. `cb` is
`this.config.resilience?.circuitBreaker`; `now` is `Date.now()`. If the
breaker is absent or disabled the call is a no-op. On success a half-open
state closes and `successCount` increments; on failure `failureCount`
increments and, when the (new) count reaches `threshold` while the state is
`closed`, the state opens, `circuitBreakerOpenedAt` is stamped and
`circuitBreakerTrips` increments. -/
def updateCircuitBreakerState (cb : Option CircuitBreakerConfig) (now : Int)
    (success : Bool) (w : ProviderWrapper) : ProviderWrapper :=
  match cb with
  | none => w
  | some c =>
    if !c.enabled then w
    else if success then
      let w1 := if w.circuitBreakerState = CircuitState.halfOpen
        then { w with circuitBreakerState := CircuitState.closed } else w
      { w1 with successCount := w1.successCount + 1 }
    else
      let w1 := { w with failureCount := w.failureCount + 1 }
      if c.threshold ≤ w1.failureCount ∧ w1.circuitBreakerState = CircuitState.closed then
        { w1 with
          circuitBreakerState := CircuitState.opened,
          circuitBreakerOpenedAt := some now,
          metrics := { w1.metrics with
            circuitBreakerTrips := w1.metrics.circuitBreakerTrips + 1 } }
      else w1

/-- Embeds `LLMRouter.isCircuitBreakerOpen(providerName)` from `core/router.ts`
(lines 174-192), acting on the named wrapper (the missing-wrapper case is
handled where the router looks the wrapper up). Returns the boolean result
and the possibly-mutated wrapper: an `open` state whose
`now - (circuitBreakerOpenedAt || 0)` has reached `resetTimeoutMs` lazily
becomes `half-open` and reports not-open; note the code does not clear
`circuitBreakerOpenedAt` there. -/
def isCircuitBreakerOpen (cb : Option CircuitBreakerConfig) (now : Int)
    (w : ProviderWrapper) : Bool × ProviderWrapper :=
  match cb with
  | none => (false, w)
  | some c =>
    if !c.enabled then (false, w)
    else if w.circuitBreakerState = CircuitState.opened then
      let timeSinceOpened := now - (w.circuitBreakerOpenedAt.getD 0)
      if c.resetTimeoutMs ≤ timeSinceOpened then
        (false, { w with circuitBreakerState := CircuitState.halfOpen })
      else (true, w)
    else (false, w)

/-- Embeds `LLMRouter.updateMetrics(providerName, success, responseTime,
rateLimited)` from `core/router.ts` (lines 245-267). Always increments
`totalRequests`, stamps `lastRequestTime` and `lastUsed`; increments exactly
one of the three outcome counters; then, whenever the (post-branch)
`successfulRequests` count is positive, folds `responseTime` into
`averageResponseTime` with the running-mean formula — the source guards on
`totalSuccessful > 0`, not on `success`. -/
def updateMetrics (now : Int) (success : Bool) (responseTime : Rat)
    (rateLimited : Bool) (w : ProviderWrapper) : ProviderWrapper :=
  let m0 := w.metrics
  let m1 := { m0 with totalRequests := m0.totalRequests + 1, lastRequestTime := now }
  let m2 :=
    if rateLimited then
      { m1 with rateLimitedRequests := m1.rateLimitedRequests + 1 }
    else if success then
      { m1 with successfulRequests := m1.successfulRequests + 1 }
    else
      { m1 with failedRequests := m1.failedRequests + 1 }
  let totalSuccessful := m2.successfulRequests
  let m3 :=
    if 0 < totalSuccessful then
      { m2 with averageResponseTime :=
          (m2.averageResponseTime * ((totalSuccessful : Rat) - 1) + responseTime)
            / (totalSuccessful : Rat) }
    else m2
  { w with lastUsed := now, metrics := m3 }

/-- JS truthiness of an optional natural: `undefined` and `0` are falsy. -/
def natTruthy : Option Nat → Bool
  | none => false
  | some n => decide (0 < n)

/-- JS `x || d` on an optional natural (`undefined` and `0` fall back). -/
def natOrDefault (x : Option Nat) (d : Nat) : Nat :=
  match x with
  | none => d
  | some 0 => d
  | some (n + 1) => n + 1

/-- Embeds `LLMRouter.checkRateLimit(providerName)` from `core/router.ts` (lines
225-240), acting on the named wrapper. When
`config.rateLimit?.tokensPerSecond` is falsy (block absent, field absent, or
zero) the check short-circuits to `true`; otherwise it compares the
limiter's `RECEIVED` count against `maxConcurrent || 10`. The `try/catch`
around `limiter.counts()` cannot fire in the model. -/
def checkRateLimit (w : ProviderWrapper) : Bool :=
  match w.config.rateLimit with
  | none => true
  | some rl =>
    if !natTruthy rl.tokensPerSecond then true
    else decide (w.limiterReceived < natOrDefault rl.maxConcurrent 10)

/-- A `{ name, cost }` pair produced by the scoring map inside
`getCostPriorityOrderedProviders`; `cost` is a JS number that may be
`Infinity`, embedded as `WithTop Rat` with `⊤` for `Infinity`. -/
structure Scored where
  name : String
  cost : WithTop Rat
deriving DecidableEq

/-- Insert into an already-sorted list, after all elements whose cost is
not strictly greater: the insertion step of a stable ascending sort. -/
def insertScored (x : Scored) : List Scored → List Scored
  | [] => [x]
  | y :: ys => if x.cost < y.cost then x :: y :: ys else y :: insertScored x ys

/-- Embeds `.sort((a, b) => a.cost - b.cost)`: JS `Array.prototype.sort` is
stable, so ties (and the `NaN` comparator value produced by two `Infinity`
scores, which V8 treats as "keep order") preserve input order; a left fold
of stable insertions realises exactly that. -/
def sortScored (l : List Scored) : List Scored :=
  l.foldl (fun acc x => insertScored x acc) []

/-- JS `x || d` on a number: `0` is falsy and falls back to `d`. -/
def ratOrDefault (x d : Rat) : Rat := if x = 0 then d else x

/-- The score expression inside `getCostPriorityOrderedProviders`
(`core/router.ts` lines 355-373): `models[0]` missing scores `Infinity`;
otherwise `avgCost / (1 / (priority || 1))` where `avgCost` averages the
first model's per-1k input and output costs. The requested model plays no
part. -/
def costPriorityScore (w : ProviderWrapper) : WithTop Rat :=
  match w.config.models with
  | [] => ⊤
  | model :: _ =>
    let avgCost := (model.costPer1kInputTokens + model.costPer1kOutputTokens) / 2
    let priorityWeight := 1 / ratOrDefault w.config.priority 1
    ((avgCost / priorityWeight : Rat) : WithTop Rat)

/-- Embeds `LLMRouter.getCostPriorityOrderedProviders` from `core/router.ts`
(lines 355-373): score every candidate, sort ascending (stable), return
the names. -/
def getCostPriorityOrderedProviders
    (providers : List (String × ProviderWrapper)) : List String :=
  (sortScored (providers.map (fun p => Scored.mk p.1 (costPriorityScore p.2)))).map
    Scored.name

/-- A name paired with its `lastUsed` field, for the round-robin sort. -/
structure RRItem where
  name : String
  lastUsed : Int
deriving DecidableEq

/-- Stable-insertion step for the round-robin sort by ascending `lastUsed`. -/
def insertRR (x : RRItem) : List RRItem → List RRItem
  | [] => [x]
  | y :: ys => if x.lastUsed < y.lastUsed then x :: y :: ys else y :: insertRR x ys

/-- Embeds `LLMRouter.getRoundRobinOrderedProviders` from `core/router.ts` (lines
378-382): stable ascending sort by `(lastUsed || 0)` (identity on the
integer field). -/
def getRoundRobinOrderedProviders
    (providers : List (String × ProviderWrapper)) : List String :=
  ((providers.map (fun p => RRItem.mk p.1 p.2.lastUsed)).foldl
    (fun acc x => insertRR x acc) []).map RRItem.name

/-- The `loadBalancingStrategy` union. -/
inductive Strategy where
  | roundRobin
  | costPriorityRoundRobin
deriving DecidableEq, Repr

/-- Embeds `this.providers`: a JS `Map` in insertion order, names unique. -/
abbrev RouterState := List (String × ProviderWrapper)

/-- Embeds `this.providers.get(name)`. -/
def findWrapper (st : RouterState) (name : String) : Option ProviderWrapper :=
  (List.find? (fun p => p.1 == name) st).map Prod.snd

/-- Replace the wrapper stored under `name` (mutating an existing entry). -/
def setWrapper (st : RouterState) (name : String) (w : ProviderWrapper) :
    RouterState :=
  List.map (fun p => if p.1 == name then (p.1, w) else p) st

/-- Embeds `this.providers.set(name, w)`: overwrite when present, else append. -/
def mapSet (st : RouterState) (name : String) (w : ProviderWrapper) :
    RouterState :=
  if List.any st (fun p => p.1 == name) then setWrapper st name w
  else st ++ [(name, w)]

/-- The candidate loop of `LLMRouter.selectProvider` (`core/router.ts`
lines 330-349): walk the strategy-ordered names; skip a candidate whose
breaker gate reports open (the gate may flip `open` to `half-open` in the
state); skip — recording `updateMetrics(name, false, 0, true)` — one that
fails the rate-limit check; return the first candidate clearing both. -/
def selectLoop (cb : Option CircuitBreakerConfig) (now : Int) :
    List String → RouterState → Option String × RouterState
  | [], st => (none, st)
  | name :: rest, st =>
    match findWrapper st name with
    | none => selectLoop cb now rest st
    | some w =>
      let gate := isCircuitBreakerOpen cb now w
      let st1 := setWrapper st name gate.2
      if gate.1 then selectLoop cb now rest st1
      else if checkRateLimit gate.2 then (some name, st1)
      else selectLoop cb now rest
        (setWrapper st1 name (updateMetrics now false 0 true gate.2))

/-- Embeds `LLMRouter.selectProvider(providers)` from `core/router.ts` (lines
309-350): empty filter or no enabled member of it yields `none`; otherwise
order the admissible entries by the active strategy and run the gate loop.
A missing wrapper makes `isCircuitBreakerOpen` return `true` (skip), which
`selectLoop` reproduces through its `findWrapper` miss case.
`availableProviders` is the `availableProviders` filter of that method. -/
def availableProviders (st : RouterState) (providers : List String) :
    RouterState :=
  List.filter (fun p => List.contains providers p.1 && p.2.config.enabled) st

/-- The remainder of `selectProvider` (see above): the two early-return
empty checks, the strategy dispatch, the gate loop. -/
def selectProvider (strategy : Strategy) (cb : Option CircuitBreakerConfig)
    (now : Int) (st : RouterState) (providers : List String) :
    Option String × RouterState :=
  if providers.isEmpty then (none, st)
  else if (availableProviders st providers).isEmpty then (none, st)
  else
    selectLoop cb now
      (match strategy with
        | Strategy.costPriorityRoundRobin =>
            getCostPriorityOrderedProviders (availableProviders st providers)
        | Strategy.roundRobin =>
            getRoundRobinOrderedProviders (availableProviders st providers))
      st

/-- Embeds `LLMRouter.getProvidersForModel(model)` from `core/router.ts` (lines
296-303): names of enabled providers one of whose models is named `model`. -/
def getProvidersForModel (st : RouterState) (model : String) : List String :=
  List.map Prod.fst
    (List.filter
      (fun p => p.2.config.enabled &&
        List.any p.2.config.models (fun m => m.name == model)) st)

/-- Embeds `LLMProviderConfig` from `types/config.ts` as `initializeProviders`
receives it: `name`/`type` may be missing (and the empty string is falsy
too), `enabled`/`priority` may be missing. -/
structure LLMProviderConfig where
  name : Option String
  type : Option String
  enabled : Option Bool
  priority : Option Rat
  apiKey : Option String
  baseUrl : Option String
  models : List ModelConfig
  rateLimit : Option RateLimitConfig
deriving DecidableEq, Repr

/-- JS truthiness of an optional string: `undefined` and `""` are falsy. -/
def strFalsy : Option String → Bool
  | none => true
  | some s => s.isEmpty

/-- The fresh wrapper `initializeProviders` stores for a kept provider
configuration (`core/router.ts` lines 123-158): loaded config with
`enabled ?? true`, `priority ?? 1`, `apiKey || ''`, `baseUrl || ''`,
`models ?? []`, zeroed state and metrics. `createProvider` (in
`providers/llmProviders.ts`) always returns a `MockProvider` and never
throws, so the surrounding `try/catch` never skips a provider. -/
def freshWrapper (pc : LLMProviderConfig) : ProviderWrapper :=
  { config :=
      { name := pc.name.getD "",
        type := pc.type.getD "",
        enabled := pc.enabled.getD true,
        priority := pc.priority.getD 1,
        apiKey := (pc.apiKey.filter (fun s => !s.isEmpty)).getD "",
        baseUrl := (pc.baseUrl.filter (fun s => !s.isEmpty)).getD "",
        models := pc.models,
        rateLimit := pc.rateLimit },
    lastUsed := 0, failureCount := 0, successCount := 0,
    circuitBreakerState := CircuitState.closed,
    circuitBreakerOpenedAt := none,
    limiterReceived := 0,
    metrics := Metrics.init }

/-- Embeds `LLMRouter.initializeProviders(config)` from `core/router.ts` (lines
86-169): an empty provider list is the constructor-time error `'No LLM
providers configured'`; each configuration with `enabled === false` or a
falsy `name`/`type` is skipped (never inserted); the rest are stored under
`providers.set(name, wrapper)`; an empty map afterwards is the error
`'No LLM providers could be initialized'`. `initStep` is one iteration of
the provider loop: skip, or store. -/
def initStep (st : RouterState) (pc : LLMProviderConfig) : RouterState :=
  if pc.enabled = some false then st
  else if strFalsy pc.name || strFalsy pc.type then st
  else mapSet st (pc.name.getD "") (freshWrapper pc)

/-- The remainder of `initializeProviders`: empty-input error, the
provider loop over `initStep`, empty-map error. -/
def initializeProviders (configs : List LLMProviderConfig) :
    Except String RouterState :=
  if configs.isEmpty then Except.error "No LLM providers configured"
  else if (configs.foldl initStep ([] : RouterState)).isEmpty then
    Except.error "No LLM providers could be initialized"
  else Except.ok (configs.foldl initStep ([] : RouterState))

/-- The response shape the routing core hands back (the free-form fields it
never inspects are dropped). -/
structure LLMResponseM where
  text : String
  model : String
  provider : String
deriving DecidableEq, Repr

/-- The environment's provider call: invocation number `k` (counted across
the whole run) takes `(handler k).1` milliseconds of wall time and yields
`(handler k).2`. This models the opaque
`limiter.schedule(handler/provider.execute)` body — Bottleneck's
`schedule` runs the function and passes its result or rejection through. -/
def Handler := Nat → Int × Except String LLMResponseM

/-- State threaded through one provider invocation: the wrapper being
mutated, the wall clock, how many handler invocations have happened, and
two instrumentation counters recording how many times the routing code has
executed its `updateCircuitBreakerState(...)` and post-invocation
`updateMetrics(...)` call sites for this provider. -/
structure InvokeSt where
  w : ProviderWrapper
  now : Int
  calls : Nat
  cbUpdates : Nat
  metricUpdates : Nat
deriving Repr

/-- How the retry `while` loop of `ResilientRouter.executeWithRateLimit`
ends: a `throw error` propagating out of the method, or a normal exit
carrying the loop's `success` flag and the response (`none` when the loop
body never ran and `response!` is `undefined`). -/
inductive LoopExit where
  | threw (e : String)
  | exited (success : Bool) (resp : Option LLMResponseM)
deriving DecidableEq, Repr

/-- The backoff expression of `router-with-resilience.ts` line 106-109:
`min(initialBackoffMs * multiplier^(retryAttempts-1), maxBackoffMs)` with
`retryAttempts` already incremented for the failure just seen. -/
def backoffDelay (r : RetryConfig) (retryAttempts : Nat) : Nat :=
  min (r.initialBackoffMs * r.multiplier ^ (retryAttempts - 1)) r.maxBackoffMs

/-- The `while (retryAttempts < maxRetries)` loop of
`ResilientRouter.executeWithRateLimit` (`router-with-resilience.ts` lines
73-113). `fuel = maxRetries - retryAttempts` makes the recursion
structural; `retryAttempts` is the source's counter. Each iteration
invokes the handler once; success breaks out; a failure increments
`retryAttempts` and either throws the error (when `retryAttempts ≥
maxRetries`) or sleeps the backoff delay and loops. -/
def retryLoop (retry : Option RetryConfig) (handler : Handler) :
    Nat → Nat → InvokeSt → LoopExit × InvokeSt
  | 0, _, s => (LoopExit.exited false none, s)
  | fuel + 1, retryAttempts, s =>
    let step := handler s.calls
    let s1 := { s with calls := s.calls + 1, now := s.now + step.1 }
    match step.2 with
    | Except.ok r => (LoopExit.exited true (some r), s1)
    | Except.error e =>
      let ra := retryAttempts + 1
      if fuel = 0 then (LoopExit.threw e, s1)
      else
        let s2 := match retry with
          | some r =>
            if r.enabled then { s1 with now := s1.now + (backoffDelay r ra : Int) }
            else s1
          | none => s1
        retryLoop retry handler fuel ra s2

/-- Embeds `ResilientRouter.executeWithRateLimit(providerName, request)` from
`router-with-resilience.ts` (lines 58-121), on the named wrapper.
`maxRetries` is `attempts` when retry is enabled, else `1`. The
post-loop breaker/metrics update (lines 115-118) runs only when the loop
exits normally: the `throw error` on the final failed attempt leaves the
method with no `finally`, so on retry exhaustion neither
`updateCircuitBreakerState` nor `updateMetrics` executes. -/
def executeWithRateLimitRes (resilience : Option ResilienceConfig)
    (handler : Handler) (s : InvokeSt) :
    Except String (Option LLMResponseM) × InvokeSt :=
  let startTime := s.now
  let retryCfg := resilience.bind ResilienceConfig.retry
  let cbCfg := resilience.bind ResilienceConfig.circuitBreaker
  let maxRetries := match retryCfg with
    | some r => if r.enabled then r.attempts else 1
    | none => 1
  match retryLoop retryCfg handler maxRetries 0 s with
  | (LoopExit.threw e, s1) => (Except.error e, s1)
  | (LoopExit.exited success resp, s1) =>
    let responseTime := ((s1.now - startTime : Int) : Rat)
    let w1 := updateCircuitBreakerState cbCfg s1.now success s1.w
    let w2 := updateMetrics s1.now success responseTime false w1
    (Except.ok resp,
     { s1 with w := w2, cbUpdates := s1.cbUpdates + 1,
               metricUpdates := s1.metricUpdates + 1 })

/-- Embeds `LLMRouter.executeWithRateLimit(providerName, request)` from
`core/router.ts` (lines 425-466), on the named wrapper: one invocation in
a `try/catch/finally`; success updates the breaker with `true`, a failure
updates it with `false` and re-raises the same error, and the `finally`
always runs `updateMetrics(name, success, Date.now() - startTime)`. -/
def executeWithRateLimitBase (resilience : Option ResilienceConfig)
    (handler : Handler) (s : InvokeSt) :
    Except String LLMResponseM × InvokeSt :=
  let startTime := s.now
  let cbCfg := resilience.bind ResilienceConfig.circuitBreaker
  let step := handler s.calls
  let s1 := { s with calls := s.calls + 1, now := s.now + step.1 }
  let responseTime := ((s1.now - startTime : Int) : Rat)
  match step.2 with
  | Except.ok r =>
    let w1 := updateCircuitBreakerState cbCfg s1.now true s1.w
    let w2 := updateMetrics s1.now true responseTime false w1
    (Except.ok r,
     { s1 with w := w2, cbUpdates := s1.cbUpdates + 1,
               metricUpdates := s1.metricUpdates + 1 })
  | Except.error e =>
    let w1 := updateCircuitBreakerState cbCfg s1.now false s1.w
    let w2 := updateMetrics s1.now false responseTime false w1
    (Except.error e,
     { s1 with w := w2, cbUpdates := s1.cbUpdates + 1,
               metricUpdates := s1.metricUpdates + 1 })

/-- Router-level state for a `ResilientRouter.execute` run. -/
structure RouterSt where
  providers : RouterState
  now : Int
  calls : Nat
deriving Repr

/-- The function `ResilientRouter.execute` hands to `policy.execute`
(`router-with-resilience.ts` lines 35-52): select among the preferred
names first, then among all candidates, fail with the no-available error
when both selections miss, otherwise run `executeWithRateLimit` on the
winner. -/
def executeAttempt (strategy : Strategy) (resilience : Option ResilienceConfig)
    (handler : Handler) (availableProviders : List String)
    (preferred : List String) (rs : RouterSt) :
    Except String (Option LLMResponseM) × RouterSt :=
  let cbCfg := resilience.bind ResilienceConfig.circuitBreaker
  let sel1 := selectProvider strategy cbCfg rs.now rs.providers
    (List.filter (fun p => List.contains availableProviders p) preferred)
  let sel2 := match sel1.1 with
    | some n => (some n, sel1.2)
    | none => selectProvider strategy cbCfg rs.now sel1.2 availableProviders
  match sel2.1 with
  | none =>
    (Except.error
      "No available LLM providers - all are either rate limited or circuit breaker is open",
     { rs with providers := sel2.2 })
  | some name =>
    match findWrapper sel2.2 name with
    | none =>
      (Except.error ("Provider " ++ name ++ " not found"),
       { rs with providers := sel2.2 })
    | some w =>
      let run := executeWithRateLimitRes resilience handler
        { w := w, now := rs.now, calls := rs.calls, cbUpdates := 0,
          metricUpdates := 0 }
      (run.1,
       { providers := setWrapper sel2.2 name run.2.w, now := run.2.now,
         calls := run.2.calls })

/-- The cockatiel retry policy `makeResiliencePolicy` builds when
`cfg.retry.enabled` (`policies.ts` lines 7-15), as an execution wrapper:
cockatiel's `maxAttempts` bounds the number of RE-attempts after the first
call, so an always-failing function runs `maxAttempts + 1` times and the
last rejection is rethrown — pinned by the repository's own
`test/policies.spec.ts` (`maxAttempts: 2` → called 3 times, same error).
`fuel` counts the remaining re-attempts; backoff sleeps only shift the
clock between calls and are irrelevant to the claims, so they are not
added here. -/
def cockatielRetryExec
    (fn : RouterSt → Except String (Option LLMResponseM) × RouterSt) :
    Nat → RouterSt → Except String (Option LLMResponseM) × RouterSt
  | 0, rs => fn rs
  | fuel + 1, rs =>
    match fn rs with
    | (Except.ok r, rs1) => (Except.ok r, rs1)
    | (Except.error _, rs1) => cockatielRetryExec fn fuel rs1

/-- Embeds `ResilientRouter.execute(request, preferredProviders)` from
`router-with-resilience.ts` (lines 21-53): resolve
`request.model || defaultModel` (empty string is falsy), fail fast on a
missing model or an empty candidate set, then run the selection+invocation
function under `this.policy` from `makeResiliencePolicy`. Only the
configurations the claims use are modelled for the policy: with
`retry.enabled` and no enabled circuit-breaker entry the policy is the
single cockatiel retry; with no enabled policy entry `makeResiliencePolicy`
returns the no-op `{ execute: fn => fn() }`. (The cockatiel
`ConsecutiveBreaker` branch for an enabled outer breaker is outside every
claim and not modelled.) -/
def executeRes (strategy : Strategy) (resilience : Option ResilienceConfig)
    (handler : Handler) (defaultModel : String) (requestModel : Option String)
    (preferred : List String) (rs : RouterSt) :
    Except String (Option LLMResponseM) × RouterSt :=
  let model := match requestModel with
    | some m => if m.isEmpty then defaultModel else m
    | none => defaultModel
  if model.isEmpty then
    (Except.error "No model specified in request and no default model configured", rs)
  else
    let avail := getProvidersForModel rs.providers model
    if avail.isEmpty then
      (Except.error ("No providers available for model: " ++ model), rs)
    else
      let fn := executeAttempt strategy resilience handler avail preferred
      match resilience.bind ResilienceConfig.retry with
      | some r => if r.enabled then cockatielRetryExec fn r.attempts rs else fn rs
      | none => fn rs

/-! Derived predicates and spec-side comparison definitions. -/

/-- The provider configuration sets no `rateLimit.tokensPerSecond` (block
absent, field absent, or zero) — the condition under which
`checkRateLimit` short-circuits. -/
def noTokensPerSecond (c : LoadedProviderConfig) : Bool :=
  match c.rateLimit with
  | none => true
  | some rl => !natTruthy rl.tokensPerSecond

/-- The invariant direction `state = open → circuitOpenedAt is set`. -/
def openedAtSetIfOpen (w : ProviderWrapper) : Prop :=
  w.circuitBreakerState = CircuitState.opened → w.circuitBreakerOpenedAt.isSome

/-- Modelled from the claim's words, NOT from the source (for comparison
with `costPriorityScore`): the score C6 asserts, computed for the
requested model — `((costPer1kInputTokens + costPer1kOutputTokens)/2) /
(1/priority)` of the model entry whose name is the requested one, `+∞`
when the provider has no matching model. -/
def claimedCostPriorityScore (w : ProviderWrapper) (requestedModel : String) :
    WithTop Rat :=
  match List.find? (fun m => m.name == requestedModel) w.config.models with
  | none => ⊤
  | some model =>
    (((model.costPer1kInputTokens + model.costPer1kOutputTokens) / 2)
      / (1 / w.config.priority) : Rat)

/-! Concrete fixtures used by the counterexample and witness theorems. -/

/-- A model entry with the given name and per-1k costs. -/
def mkModel (n : String) (ci co : Rat) : ModelConfig :=
  { name := n, costPer1kInputTokens := ci, costPer1kOutputTokens := co,
    maxTokens := 4096 }

/-- A loaded provider configuration with the given models and priority and
no rate limit. -/
def mkConfig (nm : String) (ms : List ModelConfig) (pr : Rat) :
    LoadedProviderConfig :=
  { name := nm, type := "custom", enabled := true, priority := pr,
    apiKey := "", baseUrl := "", models := ms, rateLimit := none }

/-- A freshly initialized wrapper (zeroed state) over `mkConfig`. -/
def mkWrapper (nm : String) (ms : List ModelConfig) (pr : Rat) :
    ProviderWrapper :=
  { config := mkConfig nm ms pr, lastUsed := 0, failureCount := 0,
    successCount := 0, circuitBreakerState := CircuitState.closed,
    circuitBreakerOpenedAt := none, limiterReceived := 0,
    metrics := Metrics.init }

/-- An enabled breaker with threshold 2 and `resetTimeoutMs = 1000`. -/
def cbThreshold2 : Option CircuitBreakerConfig :=
  some { enabled := true, threshold := 2, samplingDurationMs := 60000,
         resetTimeoutMs := 1000 }

/-- An enabled breaker with threshold 1 and `resetTimeoutMs = 1000`. -/
def cbThreshold1 : Option CircuitBreakerConfig :=
  some { enabled := true, threshold := 1, samplingDurationMs := 60000,
         resetTimeoutMs := 1000 }

/-- A fresh single-model provider wrapper named `p` serving model `m`. -/
def wFresh : ProviderWrapper := mkWrapper "p" [mkModel "m" 1 1] 1

/-- One recorded success on `wFresh` with sample 100 at time 10. -/
def wOneSuccess : ProviderWrapper := updateMetrics 10 true 100 false wFresh

/-- Breaker trace, threshold 2: first failure. -/
def trFail1 : ProviderWrapper := updateCircuitBreakerState cbThreshold2 100 false wFresh

/-- Breaker trace: second failure — reaches the threshold, trips open. -/
def trFail2 : ProviderWrapper := updateCircuitBreakerState cbThreshold2 200 false trFail1

/-- Breaker trace: gate check after the reset timeout — lazily half-open. -/
def trHalf : ProviderWrapper := (isCircuitBreakerOpen cbThreshold2 1200 trFail2).2

/-- Breaker trace: the half-open trial succeeds — recovery to closed. -/
def trRecovered : ProviderWrapper := updateCircuitBreakerState cbThreshold2 1300 true trHalf

/-- Breaker trace: a single failure after recovery. -/
def trReopen : ProviderWrapper := updateCircuitBreakerState cbThreshold2 1400 false trRecovered

/-- C6 fixture: provider whose first configured model (`m0`, average cost
10) differs from the requested model (`req`, average cost 1). -/
def wCostA : ProviderWrapper :=
  mkWrapper "A" [mkModel "m0" 10 10, mkModel "req" 1 1] 1

/-- C6 fixture: provider whose only model is the requested `req`, average
cost 2, same priority as `wCostA`. -/
def wCostB : ProviderWrapper := mkWrapper "B" [mkModel "req" 2 2] 1

/-- A handler that fails on every invocation, with distinct errors
(`e0`, `e1`, ...) and 5 ms of wall time each. -/
def failHandler : Handler := fun k => (5, Except.error ("e" ++ toString k))

/-- The fixed successful response. -/
def respFix : LLMResponseM := { text := "ok", model := "m", provider := "p" }

/-- A handler that always succeeds, taking 7 ms. -/
def okHandler : Handler := fun _ => (7, Except.ok respFix)

/-- A handler that fails on its first two invocations (5 ms each) and then
succeeds (7 ms). -/
def failTwiceHandler : Handler := fun k =>
  if k < 2 then (5, Except.error ("e" ++ toString k)) else (7, Except.ok respFix)

/-- Resilience configuration: retry enabled with `attempts = 3,
initialBackoffMs = 100, multiplier = 2, maxBackoffMs = 1000`, no circuit
breaker entry. -/
def resRetryOnly : Option ResilienceConfig :=
  some { retry := some { enabled := true, attempts := 3, initialBackoffMs := 100,
                         maxBackoffMs := 1000, multiplier := 2 },
         circuitBreaker := none }

/-- Resilience configuration: the same retry parameters but disabled. -/
def resRetryDisabled : Option ResilienceConfig :=
  some { retry := some { enabled := false, attempts := 3, initialBackoffMs := 100,
                         maxBackoffMs := 1000, multiplier := 2 },
         circuitBreaker := none }

/-- Resilience configuration: no retry entry, breaker enabled with
threshold 1. -/
def resCbOnly : Option ResilienceConfig :=
  some { retry := none,
         circuitBreaker := some { enabled := true, threshold := 1,
                                  samplingDurationMs := 60000,
                                  resetTimeoutMs := 1000 } }

/-- Invocation state at the start of an `executeWithRateLimit` call on
`wFresh` at time 1000. -/
def invFresh : InvokeSt :=
  { w := wFresh, now := 1000, calls := 0, cbUpdates := 0, metricUpdates := 0 }

/-- Router state holding the single provider `p` at time 0. -/
def rsFresh : RouterSt := { providers := [("p", wFresh)], now := 0, calls := 0 }

/-- A raw provider configuration for the C9 fixtures. -/
def rawCfg (nm ty : Option String) (en : Option Bool) : LLMProviderConfig :=
  { name := nm, type := ty, enabled := en, priority := none, apiKey := none,
    baseUrl := none, models := [mkModel "m" 1 1], rateLimit := none }

/-! Theorems settling the claims. -/

/-- C3: the claim says `averageResponseTime` changes only when a success is
recorded. In the code the running-mean update is guarded by
`successfulRequests > 0`, not by `success`: after one success with sample
100 (average 100), recording a FAILURE with sample 50 rewrites the average
to 50, and recording a rate-limit skip (its sample is the constant 0)
rewrites it to 0 — while the success-path recurrence itself matches the
claim's formula (first success: average (0·0+100)/1 = 100). -/
theorem updateMetrics_failure_corrupts_average :
    wOneSuccess.metrics.averageResponseTime = 100 ∧
    wOneSuccess.metrics.successfulRequests = 1 ∧
    (updateMetrics 20 false 50 false wOneSuccess).metrics.averageResponseTime = 50 ∧
    (updateMetrics 20 false 50 false wOneSuccess).metrics.successfulRequests = 1 ∧
    (updateMetrics 30 false 0 true wOneSuccess).metrics.averageResponseTime = 0 := by
  refine ⟨?_, ?_, ?_, ?_, ?_⟩ <;>
    simp [wOneSuccess, wFresh, mkWrapper, mkConfig, mkModel, Metrics.init,
      updateMetrics]

/-- C4 counterexample: the claim says a selection-time rate-limit skip
increments `rateLimitedRequests` but NOT `totalRequests`; in the code
`updateMetrics` increments `totalRequests` (and stamps `lastRequestTime`)
unconditionally, so the rate-limit skip `updateMetrics(name, false, 0,
true)` on a fresh wrapper takes `totalRequests` from 0 to 1. -/
theorem updateMetrics_rateLimited_increments_total :
    (updateMetrics 5 false 0 true wFresh).metrics.rateLimitedRequests = 1 ∧
    (updateMetrics 5 false 0 true wFresh).metrics.totalRequests = 1 ∧
    (updateMetrics 5 false 0 true wFresh).metrics.lastRequestTime = 5 := by
  decide

/-- C4 amended: per terminal outcome exactly one of `successfulRequests`,
`failedRequests`, `rateLimitedRequests` is incremented, and `totalRequests`
is incremented and `lastRequestTime` stamped on EVERY terminal outcome —
including a selection-time rate-limit skip. -/
theorem updateMetrics_exactly_one_counter (now : Int) (success : Bool)
    (rt : Rat) (rl : Bool) (w : ProviderWrapper) :
    (updateMetrics now success rt rl w).metrics.totalRequests
      = w.metrics.totalRequests + 1 ∧
    (updateMetrics now success rt rl w).metrics.lastRequestTime = now ∧
    (updateMetrics now success rt rl w).metrics.rateLimitedRequests
      = w.metrics.rateLimitedRequests + (if rl then 1 else 0) ∧
    (updateMetrics now success rt rl w).metrics.successfulRequests
      = w.metrics.successfulRequests + (if !rl && success then 1 else 0) ∧
    (updateMetrics now success rt rl w).metrics.failedRequests
      = w.metrics.failedRequests + (if !rl && !success then 1 else 0) := by
  cases rl <;> cases success <;>
    simp [updateMetrics] <;> split <;> simp

/-- C5 counterexample: with threshold 2, after trip → half-open → recovery
(state closed again, but `failureCount` still 2 — the code never resets
it), a SINGLE further failure re-opens the breaker and bumps
`circuitBreakerTrips` to 2; the claim requires a fresh streak of 2
failures counted from the post-transition baseline. -/
theorem circuitBreaker_reopens_after_one_failure :
    trRecovered.circuitBreakerState = CircuitState.closed ∧
    trRecovered.failureCount = 2 ∧
    trReopen.circuitBreakerState = CircuitState.opened ∧
    trReopen.metrics.circuitBreakerTrips = 2 := by
  decide

/-- C5 amended: with the breaker enabled, once `failureCount` reaches
`threshold` while closed the state opens exactly once per excursion (a
failure in a non-closed state changes neither the state nor the trip
count); a success recorded while half-open always closes the breaker; but
`failureCount` is cumulative — it is never reset — so after a recovery
(closed with `failureCount ≥ threshold`) the very NEXT recorded failure
re-opens the breaker, rather than a fresh streak of `threshold` failures. -/
theorem circuitBreaker_trip_and_recovery (c : CircuitBreakerConfig)
    (now : Int) (w : ProviderWrapper) (hen : c.enabled = true) :
    (w.circuitBreakerState = CircuitState.closed →
      c.threshold ≤ w.failureCount + 1 →
      (updateCircuitBreakerState (some c) now false w).circuitBreakerState
          = CircuitState.opened ∧
      (updateCircuitBreakerState (some c) now false w).circuitBreakerOpenedAt
          = some now ∧
      (updateCircuitBreakerState (some c) now false w).metrics.circuitBreakerTrips
          = w.metrics.circuitBreakerTrips + 1) ∧
    (w.circuitBreakerState ≠ CircuitState.closed →
      (updateCircuitBreakerState (some c) now false w).circuitBreakerState
          = w.circuitBreakerState ∧
      (updateCircuitBreakerState (some c) now false w).metrics.circuitBreakerTrips
          = w.metrics.circuitBreakerTrips ∧
      (updateCircuitBreakerState (some c) now false w).failureCount
          = w.failureCount + 1) ∧
    (w.circuitBreakerState = CircuitState.halfOpen →
      (updateCircuitBreakerState (some c) now true w).circuitBreakerState
          = CircuitState.closed) ∧
    ((updateCircuitBreakerState (some c) now false w).failureCount
        = w.failureCount + 1) ∧
    ((updateCircuitBreakerState (some c) now true w).failureCount
        = w.failureCount) ∧
    (w.circuitBreakerState = CircuitState.closed →
      c.threshold ≤ w.failureCount →
      (updateCircuitBreakerState (some c) now false w).circuitBreakerState
          = CircuitState.opened) := by
  refine ⟨fun hc ht => ?_, fun hc => ?_, fun hc => ?_, ?_, ?_, fun hc ht => ?_⟩
  · simp [updateCircuitBreakerState, hen, hc, ht]
  · simp [updateCircuitBreakerState, hen, hc]
  · simp [updateCircuitBreakerState, hen, hc]
  · simp [updateCircuitBreakerState, hen]
    split <;> rfl
  · simp [updateCircuitBreakerState, hen]
    split <;> rfl
  · have ht1 : c.threshold ≤ w.failureCount + 1 := Nat.le_succ_of_le ht
    simp [updateCircuitBreakerState, hen, hc, ht1]

/-- C7 counterexample: after the trip at time 200 the gate check at time
1200 moves the breaker to half-open but leaves `circuitBreakerOpenedAt`
stamped — a reachable state that is not `open` yet has `circuitOpenedAt`
set, so "`circuitOpenedAt` is set iff state is `open`" fails, as does
"every transition out of `open` clears it". -/
theorem circuitOpenedAt_not_cleared_on_halfOpen :
    trHalf.circuitBreakerState = CircuitState.halfOpen ∧
    trHalf.circuitBreakerOpenedAt = some 200 := by
  decide

/-- C7 amended: every transition into `open` stamps `circuitOpenedAt`
(so `state = open → circuitOpenedAt is set` holds in every reachable
state: it holds of a fresh wrapper and is preserved by both the outcome
update and the gate check), but no transition out of `open` clears it:
neither operation ever resets `circuitOpenedAt` to unset, so after the
first recovery the "set implies open" direction is gone for good. -/
theorem circuitOpenedAt_stamped_never_cleared (cb : Option CircuitBreakerConfig)
    (now : Int) (b : Bool) (w : ProviderWrapper) (pc : LLMProviderConfig) :
    ((updateCircuitBreakerState cb now b w).circuitBreakerState
        = CircuitState.opened →
      w.circuitBreakerState ≠ CircuitState.opened →
      (updateCircuitBreakerState cb now b w).circuitBreakerOpenedAt = some now) ∧
    ((updateCircuitBreakerState cb now b w).circuitBreakerOpenedAt
        = w.circuitBreakerOpenedAt ∨
      (updateCircuitBreakerState cb now b w).circuitBreakerOpenedAt = some now) ∧
    ((isCircuitBreakerOpen cb now w).2.circuitBreakerOpenedAt
        = w.circuitBreakerOpenedAt) ∧
    openedAtSetIfOpen (freshWrapper pc) ∧
    (openedAtSetIfOpen w → openedAtSetIfOpen (updateCircuitBreakerState cb now b w)) ∧
    (openedAtSetIfOpen w → openedAtSetIfOpen (isCircuitBreakerOpen cb now w).2) := by
  have hupd : (updateCircuitBreakerState cb now b w).circuitBreakerOpenedAt
        = w.circuitBreakerOpenedAt ∨
      (updateCircuitBreakerState cb now b w).circuitBreakerOpenedAt = some now := by
    cases cb with
    | none => exact Or.inl rfl
    | some c =>
      cases b <;> simp only [updateCircuitBreakerState] <;>
        split_ifs <;> simp_all
  have hgate : (isCircuitBreakerOpen cb now w).2.circuitBreakerOpenedAt
      = w.circuitBreakerOpenedAt := by
    cases cb with
    | none => rfl
    | some c =>
      simp only [isCircuitBreakerOpen]
      split_ifs <;> simp_all
  have hstamp : (updateCircuitBreakerState cb now b w).circuitBreakerState
        = CircuitState.opened →
      w.circuitBreakerState ≠ CircuitState.opened →
      (updateCircuitBreakerState cb now b w).circuitBreakerOpenedAt = some now := by
    cases cb with
    | none => intro h1 h2; exact absurd h1 h2
    | some c =>
      cases b <;> simp only [updateCircuitBreakerState] <;>
        split_ifs <;> intro h1 h2 <;> simp_all
  refine ⟨hstamp, hupd, hgate, ?_, ?_, ?_⟩
  · intro h
    simp [freshWrapper] at h
  · intro hw hopen
    rcases hupd with h | h
    · rw [h]
      rcases Option.eq_none_or_eq_some w.circuitBreakerOpenedAt with hn | ⟨v, hv⟩
      · by_cases hws : w.circuitBreakerState = CircuitState.opened
        · exact hw hws
        · have := hstamp hopen hws
          rw [h] at this
          simp [this]
      · simp [hv]
    · simp [h]
  · intro hw hopen
    rw [hgate]
    cases cb with
    | none =>
      simp only [isCircuitBreakerOpen] at hopen
      exact hw hopen
    | some c =>
      by_cases hws : w.circuitBreakerState = CircuitState.opened
      · exact hw hws
      · exfalso
        apply hws
        simp only [isCircuitBreakerOpen] at hopen
        revert hopen
        split_ifs <;> simp_all

/-- C8: with the breaker enabled, a failure recorded while half-open
increments `failureCount` but leaves the state half-open; the gate check
reports a half-open provider as not-open (so it is not skipped at
selection); and neither the outcome update nor the gate check ever moves a
provider into `open` except from `closed` (the gate can only move
`open` to `half-open`). -/
theorem halfOpen_failure_stays_halfOpen (c : CircuitBreakerConfig) (now : Int)
    (w : ProviderWrapper) (hen : c.enabled = true) :
    (w.circuitBreakerState = CircuitState.halfOpen →
      (updateCircuitBreakerState (some c) now false w).circuitBreakerState
          = CircuitState.halfOpen ∧
      (updateCircuitBreakerState (some c) now false w).failureCount
          = w.failureCount + 1) ∧
    (w.circuitBreakerState = CircuitState.halfOpen →
      (isCircuitBreakerOpen (some c) now w).1 = false) ∧
    (∀ b : Bool,
      (updateCircuitBreakerState (some c) now b w).circuitBreakerState
          = CircuitState.opened →
      w.circuitBreakerState = CircuitState.closed ∨
      w.circuitBreakerState = CircuitState.opened) ∧
    ((isCircuitBreakerOpen (some c) now w).2.circuitBreakerState
        = CircuitState.opened →
      w.circuitBreakerState = CircuitState.opened) := by
  refine ⟨fun hc => ?_, fun hc => ?_, fun b => ?_, ?_⟩
  · simp [updateCircuitBreakerState, hen, hc]
  · simp [isCircuitBreakerOpen, hen, hc]
  · cases b <;> simp only [updateCircuitBreakerState, hen] <;>
      split_ifs <;> simp_all
  · simp only [isCircuitBreakerOpen, hen]
    split_ifs <;> simp_all

/-- Witness for `halfOpen_failure_stays_halfOpen`: on the concrete
half-open wrapper `trHalf` (threshold-2 breaker), a recorded failure
leaves the state half-open. -/
theorem halfOpen_failure_stays_halfOpen_witness :
    (updateCircuitBreakerState
        (some (CircuitBreakerConfig.mk true 2 60000 1000)) 1300 false
        trHalf).circuitBreakerState = CircuitState.halfOpen :=
  ((halfOpen_failure_stays_halfOpen
      (CircuitBreakerConfig.mk true 2 60000 1000) 1300 trHalf rfl).1
    (by decide)).1

/-- Witness for `circuitBreaker_trip_and_recovery`: on the concrete
recovered wrapper `trRecovered` (closed, cumulative `failureCount = 2`,
threshold 2) a single recorded failure re-opens the breaker. -/
theorem circuitBreaker_trip_and_recovery_witness :
    (updateCircuitBreakerState
        (some (CircuitBreakerConfig.mk true 2 60000 1000)) 1400 false
        trRecovered).circuitBreakerState = CircuitState.opened :=
  (circuitBreaker_trip_and_recovery
      (CircuitBreakerConfig.mk true 2 60000 1000) 1400 trRecovered
      rfl).2.2.2.2.2 (by decide) (by decide)

/-- Witness for `circuitOpenedAt_stamped_never_cleared`: instantiated at
the concrete open wrapper `trFail2`, the gate check that moves it to
half-open leaves `circuitBreakerOpenedAt` exactly as it was. -/
theorem circuitOpenedAt_stamped_never_cleared_witness :
    (isCircuitBreakerOpen cbThreshold2 1200 trFail2).2.circuitBreakerOpenedAt
      = trFail2.circuitBreakerOpenedAt :=
  (circuitOpenedAt_stamped_never_cleared cbThreshold2 1200 false trFail2
      (rawCfg (some "a") (some "t") none)).2.2.1

/-- C1: on an always-failing handler with retry absent (`maxRetries = 1`)
and the per-provider breaker enabled (threshold 1),
`ResilientRouter.executeWithRateLimit` re-raises the handler's error but
executes its breaker-update and metrics-update call sites ZERO times and
leaves the wrapper untouched (the `throw` on retry exhaustion skips the
post-loop update; there is no `finally`), whereas the base
`LLMRouter.executeWithRateLimit` on the same input updates each exactly
once (failure recorded, breaker opened) — and on success both record the
response-time sample as the elapsed wall time since the invocation
started: the base router's single 7 ms success yields average 7, and the
resilient router's fail-fail-success run (5 + 100 + 5 + 200 + 7 ms)
updates each site exactly once with sample 317. -/
theorem resilient_failure_skips_updates :
    (executeWithRateLimitRes resCbOnly failHandler invFresh).1
        = Except.error "e0" ∧
    (executeWithRateLimitRes resCbOnly failHandler invFresh).2.cbUpdates = 0 ∧
    (executeWithRateLimitRes resCbOnly failHandler invFresh).2.metricUpdates = 0 ∧
    (executeWithRateLimitRes resCbOnly failHandler invFresh).2.w = wFresh ∧
    (executeWithRateLimitBase resCbOnly failHandler invFresh).1
        = Except.error "e0" ∧
    (executeWithRateLimitBase resCbOnly failHandler invFresh).2.cbUpdates = 1 ∧
    (executeWithRateLimitBase resCbOnly failHandler invFresh).2.metricUpdates = 1 ∧
    (executeWithRateLimitBase resCbOnly failHandler invFresh).2.w.metrics.failedRequests
        = 1 ∧
    (executeWithRateLimitBase resCbOnly failHandler invFresh).2.w.circuitBreakerState
        = CircuitState.opened ∧
    (executeWithRateLimitBase resCbOnly okHandler invFresh).2.w.metrics.averageResponseTime
        = 7 ∧
    (executeWithRateLimitRes resRetryOnly failTwiceHandler invFresh).1
        = Except.ok (some respFix) ∧
    (executeWithRateLimitRes resRetryOnly failTwiceHandler invFresh).2.cbUpdates = 1 ∧
    (executeWithRateLimitRes resRetryOnly failTwiceHandler invFresh).2.metricUpdates = 1 ∧
    (executeWithRateLimitRes resRetryOnly failTwiceHandler invFresh).2.calls = 3 ∧
    (executeWithRateLimitRes resRetryOnly failTwiceHandler invFresh).2.w.metrics.averageResponseTime
        = 317 := by
  refine ⟨by rfl, by rfl, by rfl, by rfl, by rfl, by rfl, by rfl, by rfl, by rfl,
    ?_, by rfl, by rfl, by rfl, by rfl, ?_⟩
  · simp [executeWithRateLimitBase, resCbOnly, okHandler, invFresh, wFresh, mkWrapper,
      mkConfig, mkModel, Metrics.init, updateCircuitBreakerState, updateMetrics, respFix]
  · simp [executeWithRateLimitRes, retryLoop, backoffDelay, resRetryOnly,
      failTwiceHandler, invFresh, wFresh, mkWrapper, mkConfig, mkModel, Metrics.init,
      updateCircuitBreakerState, updateMetrics, respFix]

/-- C2: with one provider, retry enabled as `attempts = 3, initialBackoffMs
= 100, multiplier = 2, maxBackoffMs = 1000` and no circuit breaker, a
single `ResilientRouter.execute` call on an always-failing handler invokes
the handler 12 times, not 3: the cockatiel policy built by
`makeResiliencePolicy` re-runs the whole selection+invocation function
`attempts` more times (1 + 3 runs) and each run's inner
`executeWithRateLimit` loop invokes the handler `attempts = 3` times. The
raised error `e11` is the 12th (last) handler error, propagated verbatim.
With retry disabled the handler is invoked exactly once and its error `e0`
propagates verbatim. -/
theorem execute_invokes_handler_twelve_times :
    (executeRes Strategy.roundRobin resRetryOnly failHandler "m" none [] rsFresh).1
        = Except.error "e11" ∧
    (executeRes Strategy.roundRobin resRetryOnly failHandler "m" none [] rsFresh).2.calls
        = 12 ∧
    (executeRes Strategy.roundRobin resRetryDisabled failHandler "m" none [] rsFresh).1
        = Except.error "e0" ∧
    (executeRes Strategy.roundRobin resRetryDisabled failHandler "m" none [] rsFresh).2.calls
        = 1 :=
  ⟨by rfl, by rfl, by rfl, by rfl⟩

/-- Stable insertion is a permutation: `insertScored x l` rearranges
`x :: l`. -/
theorem insertScored_perm (x : Scored) (l : List Scored) :
    (insertScored x l).Perm (x :: l) := by
  induction l with
  | nil => exact List.Perm.refl _
  | cons y ys ih =>
    simp only [insertScored]
    split
    · exact List.Perm.refl _
    · exact (ih.cons y).trans (List.Perm.swap x y ys)

/-- The stable insertion sort permutes its input. -/
theorem sortScored_perm (l : List Scored) : (sortScored l).Perm l := by
  suffices h : ∀ (l acc : List Scored),
      (List.foldl (fun acc x => insertScored x acc) acc l).Perm (acc ++ l) by
    simpa using h l []
  intro l
  induction l with
  | nil => simp
  | cons x xs ih =>
    intro acc
    simp only [List.foldl_cons]
    exact (ih (insertScored x acc)).trans
      (((insertScored_perm x acc).append_right xs).trans List.perm_middle.symm)

/-- Inserting into a cost-sorted list keeps it cost-sorted. -/
theorem insertScored_sorted (x : Scored) {l : List Scored}
    (h : l.Sorted (fun a b : Scored => a.cost ≤ b.cost)) :
    (insertScored x l).Sorted (fun a b : Scored => a.cost ≤ b.cost) := by
  induction l with
  | nil => simp [insertScored]
  | cons y ys ih =>
    rw [List.sorted_cons] at h
    simp only [insertScored]
    split
    · rename_i hlt
      rw [List.sorted_cons]
      refine ⟨fun z hz => ?_, List.sorted_cons.mpr h⟩
      rcases List.mem_cons.mp hz with rfl | hz
      · exact le_of_lt hlt
      · exact le_trans (le_of_lt hlt) (h.1 z hz)
    · rename_i hnlt
      rw [List.sorted_cons]
      refine ⟨fun z hz => ?_, ih h.2⟩
      rcases List.mem_cons.mp ((insertScored_perm x ys).mem_iff.mp hz) with rfl | hzy
      · exact le_of_not_lt hnlt
      · exact h.1 z hzy

/-- The stable insertion sort produces a cost-sorted list. -/
theorem sortScored_sorted (l : List Scored) :
    (sortScored l).Sorted (fun a b : Scored => a.cost ≤ b.cost) := by
  suffices h : ∀ (l acc : List Scored),
      acc.Sorted (fun a b : Scored => a.cost ≤ b.cost) →
      (List.foldl (fun acc x => insertScored x acc) acc l).Sorted
        (fun a b : Scored => a.cost ≤ b.cost) by
    exact h l [] (by simp)
  intro l
  induction l with
  | nil => intro acc hacc; simpa using hacc
  | cons x xs ih =>
    intro acc hacc
    simp only [List.foldl_cons]
    exact ih _ (insertScored_sorted x hacc)

/-- Sorting a two-element list: the second element moves in front exactly
when its cost is strictly smaller (ties keep input order). -/
theorem sortScored_pair (x y : Scored) :
    sortScored [x, y] = if y.cost < x.cost then [y, x] else [x, y] := by
  simp [sortScored, insertScored]

/-- C6 counterexample: provider `A` supports the requested model `req` at
average cost 1 and provider `B` at average cost 2, with equal priority, so
under the claim's requested-model score `A` must be ordered first — but
the code scores by `models[0]` (for `A` that is `m0` at average cost 10,
never the requested model), and orders `["B", "A"]`. -/
theorem costPriority_ignores_requested_model :
    claimedCostPriorityScore wCostA "req" < claimedCostPriorityScore wCostB "req" ∧
    wCostA.config.priority = wCostB.config.priority ∧
    getCostPriorityOrderedProviders [("A", wCostA), ("B", wCostB)] = ["B", "A"] := by
  refine ⟨?_, rfl, ?_⟩
  · simp [claimedCostPriorityScore, wCostA, wCostB, mkWrapper, mkConfig, mkModel,
      List.find?]
  · simp [getCostPriorityOrderedProviders, sortScored, insertScored, costPriorityScore,
      wCostA, wCostB, mkWrapper, mkConfig, mkModel, ratOrDefault]
    rw [if_pos (by exact_mod_cast (by norm_num : (2 : Rat) < 10))]
    simp

/-- C6 amended: `getCostPriorityOrderedProviders` orders candidates
ascending by the score of each provider's FIRST configured model
(`models[0]`) — `((costPer1kInputTokens + costPer1kOutputTokens)/2) /
(1/(priority || 1))`, the requested model playing no part — with a
provider whose model list is empty scoring `+∞`; the result is a
permutation of the input names, the scores are sorted ascending, ties keep
input order, and of two providers with identical positive priority the one
with the lower average FIRST-model cost is ordered first whichever way the
pair is presented. -/
theorem costPriority_orders_by_first_model :
    (∀ ps : List (String × ProviderWrapper),
      (getCostPriorityOrderedProviders ps).Perm (List.map Prod.fst ps)) ∧
    (∀ l : List Scored,
      (sortScored l).Sorted (fun a b : Scored => a.cost ≤ b.cost)) ∧
    (∀ (na nb : String) (a b : ProviderWrapper),
      getCostPriorityOrderedProviders [(na, a), (nb, b)]
        = if costPriorityScore b < costPriorityScore a then [nb, na]
          else [na, nb]) ∧
    (∀ (na nb : String) (a b : ProviderWrapper) (ma mb : ModelConfig)
        (r1 r2 : List ModelConfig),
      a.config.models = ma :: r1 → b.config.models = mb :: r2 →
      a.config.priority = b.config.priority → 0 < a.config.priority →
      (ma.costPer1kInputTokens + ma.costPer1kOutputTokens) / 2
        < (mb.costPer1kInputTokens + mb.costPer1kOutputTokens) / 2 →
      getCostPriorityOrderedProviders [(na, a), (nb, b)] = [na, nb] ∧
      getCostPriorityOrderedProviders [(nb, b), (na, a)] = [na, nb]) ∧
    (∀ (na nb : String) (a b : ProviderWrapper) (ma : ModelConfig)
        (r1 : List ModelConfig),
      a.config.models = ma :: r1 → b.config.models = [] →
      getCostPriorityOrderedProviders [(na, a), (nb, b)] = [na, nb] ∧
      getCostPriorityOrderedProviders [(nb, b), (na, a)] = [na, nb]) := by
  have hpair : ∀ (na nb : String) (a b : ProviderWrapper),
      getCostPriorityOrderedProviders [(na, a), (nb, b)]
        = if costPriorityScore b < costPriorityScore a then [nb, na]
          else [na, nb] := by
    intro na nb a b
    simp only [getCostPriorityOrderedProviders, List.map_cons, List.map_nil,
      sortScored_pair]
    split <;> simp_all
  have hscore : ∀ (a : ProviderWrapper) (ma : ModelConfig) (r1 : List ModelConfig),
      a.config.models = ma :: r1 → 0 < a.config.priority →
      costPriorityScore a
        = (((ma.costPer1kInputTokens + ma.costPer1kOutputTokens) / 2
            * a.config.priority : Rat) : WithTop Rat) := by
    intro a ma r1 hm hp
    have hne : a.config.priority ≠ 0 := ne_of_gt hp
    simp only [costPriorityScore, hm, ratOrDefault, if_neg hne,
      div_div_eq_mul_div, div_one]
  refine ⟨?_, sortScored_sorted, hpair, ?_, ?_⟩
  · intro ps
    simp only [getCostPriorityOrderedProviders]
    refine ((sortScored_perm _).map Scored.name).trans ?_
    rw [List.map_map]
    exact List.Perm.refl _
  · intro na nb a b ma mb r1 r2 hma hmb hpeq hp hcost
    have hplt : (ma.costPer1kInputTokens + ma.costPer1kOutputTokens) / 2
          * a.config.priority
        < (mb.costPer1kInputTokens + mb.costPer1kOutputTokens) / 2
          * b.config.priority := by
      rw [← hpeq]
      exact mul_lt_mul_of_pos_right hcost hp
    have hlt : costPriorityScore a < costPriorityScore b := by
      rw [hscore a ma r1 hma hp, hscore b mb r2 hmb (hpeq ▸ hp)]
      exact_mod_cast hplt
    constructor
    · rw [hpair]
      exact if_neg (fun hc => absurd hlt (lt_asymm hc))
    · rw [hpair]
      exact if_pos hlt
  · intro na nb a b ma r1 hma hmb
    have hb : costPriorityScore b = ⊤ := by
      simp [costPriorityScore, hmb]
    have hq : costPriorityScore a
        = (((ma.costPer1kInputTokens + ma.costPer1kOutputTokens) / 2
            / (1 / ratOrDefault a.config.priority 1) : Rat) : WithTop Rat) := by
      simp only [costPriorityScore, hma]
    constructor
    · rw [hpair, hb, hq]
      exact if_neg (by simp)
    · rw [hpair, hb, hq]
      exact if_pos (WithTop.coe_lt_top _)

/-- Witness for `costPriority_orders_by_first_model`: with equal priority
1 and first-model average costs 2 (`wCostB`) versus 10 (`wCostA`), the
cheaper-first-model provider `B` is ordered first. -/
theorem costPriority_orders_by_first_model_witness :
    getCostPriorityOrderedProviders [("B", wCostB), ("A", wCostA)] = ["B", "A"] :=
  (costPriority_orders_by_first_model.2.2.2.1 "B" "A" wCostB wCostA
      (mkModel "req" 2 2) (mkModel "m0" 10 10) [] [mkModel "req" 1 1]
      rfl rfl rfl (by norm_num [wCostB, mkWrapper, mkConfig])
      (by norm_num [mkModel])).1

/-- Every entry of `mapSet st n u` is an old entry or the new binding. -/
theorem mapSet_mem {st : RouterState} {n : String} {u : ProviderWrapper}
    {p : String × ProviderWrapper} (h : p ∈ mapSet st n u) :
    p ∈ st ∨ p = (n, u) := by
  unfold mapSet at h
  split at h
  · rcases List.mem_map.mp h with ⟨q, hq, hfq⟩
    by_cases hqn : q.1 == n
    · right
      rw [if_pos hqn] at hfq
      rw [← hfq]
      exact congrArg (fun s => (s, u)) (by simpa using hqn)
    · left
      rw [if_neg hqn] at hfq
      exact hfq ▸ hq
  · rcases List.mem_append.mp h with hq | hq
    · exact Or.inl hq
    · exact Or.inr (List.mem_singleton.mp hq)

/-- Every entry the provider-initialization fold produces comes from the
accumulator or from a KEPT configuration: one that is not disabled and
has a truthy name and type. -/
theorem initFold_mem (configs : List LLMProviderConfig) :
    ∀ (acc : RouterState) (p : String × ProviderWrapper),
      p ∈ List.foldl initStep acc configs →
      p ∈ acc ∨ ∃ pc ∈ configs, pc.enabled ≠ some false ∧
        strFalsy pc.name = false ∧ strFalsy pc.type = false ∧
        p.1 = pc.name.getD "" ∧ p.2 = freshWrapper pc := by
  induction configs with
  | nil => intro acc p h; exact Or.inl h
  | cons pc pcs ih =>
    intro acc p h
    simp only [List.foldl_cons] at h
    rcases ih (initStep acc pc) p h with hacc | ⟨pc', hpc', hrest⟩
    · unfold initStep at hacc
      split at hacc
      · exact Or.inl hacc
      · split at hacc
        · exact Or.inl hacc
        · rcases mapSet_mem hacc with hin | rfl
          · exact Or.inl hin
          · rename_i hdis hfal
            right
            refine ⟨pc, List.mem_cons_self pc pcs, hdis, ?_, ?_, rfl, rfl⟩
            · cases hn : strFalsy pc.name
              · rfl
              · exact absurd (by simp [hn]) hfal
            · cases ht : strFalsy pc.type
              · rfl
              · exact absurd (by simp [ht]) hfal
    · exact Or.inr ⟨pc', List.mem_cons_of_mem pc hpc', hrest⟩

/-- A fold over configurations that are all disabled inserts nothing. -/
theorem initFold_all_disabled (configs : List LLMProviderConfig)
    (hall : ∀ pc ∈ configs, pc.enabled = some false) :
    ∀ acc : RouterState, List.foldl initStep acc configs = acc := by
  induction configs with
  | nil => intro acc; rfl
  | cons pc pcs ih =>
    intro acc
    simp only [List.foldl_cons]
    rw [show initStep acc pc = acc from
      by unfold initStep; rw [if_pos (hall pc (List.mem_cons_self pc pcs))]]
    exact ih (fun q hq => hall q (List.mem_cons_of_mem pc hq)) acc

/-- C9: every provider map entry the constructor produces originates in a
configuration that is enabled (not `enabled === false`) and has a truthy
name and type — a disabled or nameless/typeless configuration is never
inserted, so no later `execute` call can select it; and a non-empty
configuration list whose members are all disabled makes construction fail
with the `'No LLM providers could be initialized'` error. -/
theorem disabled_providers_never_initialized :
    (∀ (configs : List LLMProviderConfig) (st : RouterState),
      initializeProviders configs = Except.ok st →
      ∀ p ∈ st, ∃ pc ∈ configs, pc.enabled ≠ some false ∧
        strFalsy pc.name = false ∧ strFalsy pc.type = false ∧
        p.1 = pc.name.getD "" ∧ p.2 = freshWrapper pc) ∧
    (∀ configs : List LLMProviderConfig, configs ≠ [] →
      (∀ pc ∈ configs, pc.enabled = some false) →
      initializeProviders configs
        = Except.error "No LLM providers could be initialized") := by
  constructor
  · intro configs st hok p hp
    unfold initializeProviders at hok
    split at hok
    · cases hok
    · split at hok
      · cases hok
      · cases hok
        rcases initFold_mem configs [] p hp with hnil | hfound
        · cases hnil
        · exact hfound
  · intro configs hne hall
    unfold initializeProviders
    rw [if_neg (by simpa using hne), initFold_all_disabled configs hall]
    rfl

/-- Witness for `disabled_providers_never_initialized`: a single disabled
configuration yields the could-not-initialize constructor error. -/
theorem disabled_providers_never_initialized_witness :
    initializeProviders [rawCfg (some "a") (some "t") (some false)]
      = Except.error "No LLM providers could be initialized" :=
  disabled_providers_never_initialized.2
    [rawCfg (some "a") (some "t") (some false)] (by simp)
    (fun pc hpc => by rw [List.mem_singleton] at hpc; subst hpc; rfl)

/-- The rate-limit check always passes for a wrapper whose configuration
sets no `tokensPerSecond`. -/
theorem checkRateLimit_noTps (w : ProviderWrapper)
    (h : noTokensPerSecond w.config = true) : checkRateLimit w = true := by
  cases hrl : w.config.rateLimit with
  | none => simp [checkRateLimit, hrl]
  | some rl =>
    simp only [noTokensPerSecond, hrl] at h
    simp [checkRateLimit, hrl, h]

/-- The breaker gate check can change only the circuit state of a
wrapper: configuration, metrics and the limiter count are untouched. -/
theorem gate_preserves_config (cb : Option CircuitBreakerConfig) (now : Int)
    (w : ProviderWrapper) :
    (isCircuitBreakerOpen cb now w).2.config = w.config ∧
    (isCircuitBreakerOpen cb now w).2.metrics = w.metrics ∧
    (isCircuitBreakerOpen cb now w).2.limiterReceived = w.limiterReceived := by
  cases cb with
  | none => exact ⟨rfl, rfl, rfl⟩
  | some c =>
    simp only [isCircuitBreakerOpen]
    split_ifs <;> exact ⟨rfl, rfl, rfl⟩

/-- Replacing an entry keeps every entry's key, so looking up a DIFFERENT
name after `setWrapper` is unchanged. -/
theorem findWrapper_setWrapper_ne (st : RouterState) (m n : String)
    (u : ProviderWrapper) (hmn : m ≠ n) :
    findWrapper (setWrapper st m u) n = findWrapper st n := by
  induction st with
  | nil => rfl
  | cons p ps ih =>
    have hsw : setWrapper (p :: ps) m u
        = (if (p.1 == m) = true then (p.1, u) else p) :: setWrapper ps m u := rfl
    rw [hsw]
    cases hbm : (p.1 == m) with
    | false =>
      rw [if_neg (by simp)]
      unfold findWrapper
      cases hbn : (p.1 == n) with
      | true =>
        have hpos : (fun q : String × ProviderWrapper => q.1 == n) p = true := hbn
        rw [List.find?_cons_of_pos (setWrapper ps m u) hpos,
          List.find?_cons_of_pos ps hpos]
      | false =>
        have hneg : ¬ (fun q : String × ProviderWrapper => q.1 == n) p = true := by
          simp [hbn]
        rw [List.find?_cons_of_neg (setWrapper ps m u) hneg,
          List.find?_cons_of_neg ps hneg]
        exact ih
    | true =>
      rw [if_pos rfl]
      unfold findWrapper
      have hpm : p.1 = m := by simpa using hbm
      have hne : ¬ p.1 = n := fun he => hmn (hpm.symm.trans he)
      have hneg1 : ¬ (fun q : String × ProviderWrapper => q.1 == n) (p.1, u)
          = true := by simpa using hne
      have hneg2 : ¬ (fun q : String × ProviderWrapper => q.1 == n) p = true := by
        simpa using hne
      rw [List.find?_cons_of_neg (setWrapper ps m u) hneg1,
        List.find?_cons_of_neg ps hneg2]
      exact ih

/-- Looking the SAME name up after `setWrapper`: present entries now hold
the new wrapper. -/
theorem findWrapper_setWrapper_self (st : RouterState) (n : String)
    (u : ProviderWrapper) :
    findWrapper (setWrapper st n u) n = (findWrapper st n).map (fun _ => u) := by
  induction st with
  | nil => rfl
  | cons p ps ih =>
    have hsw : setWrapper (p :: ps) n u
        = (if (p.1 == n) = true then (p.1, u) else p) :: setWrapper ps n u := rfl
    rw [hsw]
    unfold findWrapper
    cases hbn : (p.1 == n) with
    | true =>
      rw [if_pos rfl]
      have hpos1 : (fun q : String × ProviderWrapper => q.1 == n) (p.1, u)
          = true := hbn
      have hpos2 : (fun q : String × ProviderWrapper => q.1 == n) p = true := hbn
      rw [List.find?_cons_of_pos (setWrapper ps n u) hpos1,
        List.find?_cons_of_pos ps hpos2]
      rfl
    | false =>
      rw [if_neg (by simp)]
      have hneg : ¬ (fun q : String × ProviderWrapper => q.1 == n) p = true := by
        simp [hbn]
      rw [List.find?_cons_of_neg (setWrapper ps n u) hneg,
        List.find?_cons_of_neg ps hneg]
      exact ih

/-- The candidate loop of `selectProvider` never touches
`rateLimitedRequests` of a provider whose configuration sets no
`tokensPerSecond` (the rate-limited branch is unreachable for it, and the
gate update preserves metrics). -/
theorem selectLoop_preserves_noTps_rl (cb : Option CircuitBreakerConfig)
    (now : Int) (n : String) (r : Nat) (names : List String) :
    ∀ st : RouterState,
      (∀ v, findWrapper st n = some v → noTokensPerSecond v.config = true ∧
        v.metrics.rateLimitedRequests = r) →
      ∀ v', findWrapper (selectLoop cb now names st).2 n = some v' →
        noTokensPerSecond v'.config = true ∧
        v'.metrics.rateLimitedRequests = r := by
  induction names with
  | nil => intro st hst v' hv'; exact hst v' hv'
  | cons name rest ih =>
    intro st hst v' hv'
    simp only [selectLoop] at hv'
    cases hfind : findWrapper st name with
    | none =>
      rw [hfind] at hv'
      exact ih st hst v' hv'
    | some w =>
      rw [hfind] at hv'
      dsimp only at hv'
      set g := isCircuitBreakerOpen cb now w with hg
      have hst1 : ∀ v, findWrapper (setWrapper st name g.2) n = some v →
          noTokensPerSecond v.config = true ∧
          v.metrics.rateLimitedRequests = r := by
        intro v hv
        by_cases hmn : name = n
        · subst hmn
          rw [findWrapper_setWrapper_self] at hv
          rcases Option.map_eq_some'.mp hv with ⟨w0, hw0, hveq⟩
          subst hveq
          have := hst w hfind
          rcases gate_preserves_config cb now w with ⟨hc, hm, _⟩
          rw [← hg] at hc hm
          rw [hc, hm]
          exact this
        · rw [findWrapper_setWrapper_ne st name n g.2 hmn] at hv
          exact hst v hv
      by_cases hopen : g.1 = true
      · rw [if_pos hopen] at hv'
        exact ih _ hst1 v' hv'
      · rw [if_neg hopen] at hv'
        by_cases hcap : checkRateLimit g.2 = true
        · rw [if_pos hcap] at hv'
          exact hst1 v' hv'
        · rw [if_neg hcap] at hv'
          by_cases hmn : name = n
          · exfalso
            apply hcap
            subst hmn
            have hnt := (hst w hfind).1
            rcases gate_preserves_config cb now w with ⟨hc, _, _⟩
            rw [← hg] at hc
            exact checkRateLimit_noTps g.2 (hc ▸ hnt)
          · have hst2 : ∀ v, findWrapper
                (setWrapper (setWrapper st name g.2) name
                  (updateMetrics now false 0 true g.2)) n = some v →
                noTokensPerSecond v.config = true ∧
                v.metrics.rateLimitedRequests = r := by
              intro v hv
              rw [findWrapper_setWrapper_ne _ name n _ hmn] at hv
              exact hst1 v hv
            exact ih _ hst2 v' hv'

/-- C10: for every provider whose configuration does not set
`rateLimit.tokensPerSecond` (block absent, field absent, or zero), the
admission check returns `true` whatever the limiter's in-flight count is,
and a whole `selectProvider` pass leaves that provider's
`rateLimitedRequests` counter unchanged — it is never skipped as
rate-limited at the selection layer. -/
theorem noTps_never_rate_limited :
    (∀ (w : ProviderWrapper) (k : Nat), noTokensPerSecond w.config = true →
      checkRateLimit { w with limiterReceived := k } = true) ∧
    (∀ (strategy : Strategy) (cb : Option CircuitBreakerConfig) (now : Int)
        (st : RouterState) (providers : List String) (n : String)
        (w : ProviderWrapper),
      findWrapper st n = some w → noTokensPerSecond w.config = true →
      ∀ v', findWrapper (selectProvider strategy cb now st providers).2 n
          = some v' →
        v'.metrics.rateLimitedRequests = w.metrics.rateLimitedRequests) := by
  constructor
  · intro w k h
    exact checkRateLimit_noTps { w with limiterReceived := k } h
  · intro strategy cb now st providers n w hfind hnt v' hv'
    have hst : ∀ v, findWrapper st n = some v →
        noTokensPerSecond v.config = true ∧
        v.metrics.rateLimitedRequests = w.metrics.rateLimitedRequests := by
      intro v hv
      rw [hfind] at hv
      cases hv
      exact ⟨hnt, rfl⟩
    unfold selectProvider at hv'
    split at hv'
    · exact (hst v' hv').2
    · split at hv'
      · exact (hst v' hv').2
      · exact (selectLoop_preserves_noTps_rl cb now n
          w.metrics.rateLimitedRequests _ st hst v' hv').2

/-- Witness for `noTps_never_rate_limited`: the fresh provider `p` (no
rate-limit block) passes the admission check even with 1000 in-flight
calls, and after a concrete `selectProvider` pass that picks it, its
`rateLimitedRequests` counter is still 0. -/
theorem noTps_never_rate_limited_witness :
    checkRateLimit { wFresh with limiterReceived := 1000 } = true ∧
    wFresh.metrics.rateLimitedRequests = 0 :=
  ⟨noTps_never_rate_limited.1 wFresh 1000 rfl,
   (noTps_never_rate_limited.2 Strategy.roundRobin none 0 [("p", wFresh)]
      ["p"] "p" wFresh rfl rfl wFresh (by rfl)).trans (by rfl)⟩

end LLMRouter
